import Mathlib

/-!
Shallow embedding of the go-auth authentication service (service.go,
model.go, transport.http.go) for checking its specification.

Machine state (the SQL `user` table, the nonce store) is passed
explicitly.  External collaborators are modelled at their interface
boundary:

* bcrypt (`helpers.Crypto`) — an injective executable hashing model;
* base64 — an injective executable encoding model;
* `net/mail.ParseAddress` / `strings.TrimSpace` — executable models
  over the string's character list (the Lean core string routines do
  not reduce in the kernel, so the models use structural recursion on
  `String.data`);
* the mailgun client and the template system — failure flags in an
  environment record (their failures are the only thing the service
  observes);
* the nonce service (`github.com/bryanjeal/go-nonce`) — modelled from
  the one-time-token contract: issue with (purpose, subject, ttl),
  atomic check-then-consume that fails on missing / consumed / expired /
  wrong purpose / wrong subject tokens.

UUIDs are modelled as `Nat` with `0` playing `uuid.Nil`; `uuid.NewV4`
is modelled by a fresh-id counter in the state.  Wall-clock times are
`Nat` seconds; the zero value `0` is the "not deleted" sentinel.
-/

namespace GoAuth

/-- Whitespace for the `strings.TrimSpace` model. -/
def isSpaceChar (c : Char) : Bool :=
  c = ' ' || c = '\t' || c = '\n' || c = '\r'

/-- Trim leading and trailing whitespace from a character list. -/
def trimChars (l : List Char) : List Char :=
  ((l.dropWhile isSpaceChar).reverse.dropWhile isSpaceChar).reverse

/-- `strings.TrimSpace` model. -/
def strTrim (s : String) : String := String.mk (trimChars s.data)

/-- `len(strings.TrimSpace(s)) == 0`: blank or whitespace-only. -/
def strBlank (s : String) : Bool := (trimChars s.data).isEmpty

/-- `len(s) == 0`. -/
def strIsEmpty (s : String) : Bool := s.data.isEmpty

/-- String equality as a boolean on the underlying character lists. -/
def strEqb (a b : String) : Bool := a.data == b.data

/-- Split a character list at every occurrence of `c` (the shape of
splitting used by the address parser model). -/
def splitOnChar (c : Char) : List Char → List (List Char)
  | [] => [[]]
  | x :: xs =>
    let r := splitOnChar c xs
    if x = c then [] :: r
    else
      match r with
      | h :: t => (x :: h) :: t
      | [] => [[x]]

/-- Error values of the auth package (`service.go` lines 29-38) together
with the errors propagated from collaborators (address parse errors,
base64 decode errors, template/mailgun/nonce failures, DB constraint
violations). -/
inductive Err where
  | inconsistentIDs
  | alreadyExists
  | userNotFound
  | invalidID
  | invalidPassword
  | invalidName
  | incorrectAuth
  | todo
  | invalidAddress
  | base64Decode
  | invalidToken
  | tplError
  | rcptError
  | sendError
  | nonceError
  | dbError
  deriving Repr, DecidableEq

/-- bcrypt model: `helpers.Crypto.BCryptPasswordHasher`.  Injective by
construction (prepends a tag character to the password's characters). -/
def bcryptHash (p : String) : String :=
  String.mk ('$' :: p.data)

/-- bcrypt model: `helpers.Crypto.BCryptCompareHashPassword` succeeds
exactly when the hash is the hash of the supplied password. -/
def bcryptCompare (hash pw : String) : Bool :=
  strEqb hash (bcryptHash pw)

/-- base64 model: `base64.StdEncoding.EncodeToString`. -/
def b64encode (s : String) : String :=
  String.mk ('+' :: s.data)

/-- base64 model: `base64.StdEncoding.DecodeString`; fails on strings
not produced by `b64encode`. -/
def b64decode (s : String) : Option String :=
  match s.data with
  | c :: rest => if c = '+' then some (String.mk rest) else none
  | [] => none

/-- Address validity for the `net/mail.ParseAddress` model: no
whitespace anywhere, not an angle-bracketed form, exactly one `@` with
nonempty local part and domain. -/
def isValidAddrChars (a : List Char) : Bool :=
  !(a.any isSpaceChar) && !(a.getLast? == some '>') && !(a.head? == some '<') &&
    (match splitOnChar '@' a with
     | [loc, dom] => !loc.isEmpty && !dom.isEmpty
     | _ => false)

/-- Unwrap a `Name <addr>` form to the bracketed address. -/
def unwrapAngle (t : List Char) : List Char :=
  if t.getLast? == some '>' then
    match splitOnChar '<' t.dropLast with
    | [_, addr] => addr
    | _ => t
  else t

/-- The candidate address extracted from the raw input: trim, then
unwrap an angle-bracketed form. -/
def addrCandidate (s : String) : List Char :=
  unwrapAngle (trimChars s.data)

/-- `net/mail.ParseAddress` model: extract the candidate address,
validate it, and return it as the normalised address. -/
def parseAddress (s : String) : Option String :=
  if isValidAddrChars (addrCandidate s) then some (String.mk (addrCandidate s))
  else none

/-- The `User` model (model.go lines 15-31).  The `Providers` slice is
omitted: it is dead weight for every operation embedded here (only the
unimplemented provider surface touches it).  `newPassword` and
`rawPassword` are the unexported transient fields. -/
structure User where
  ID : Nat
  Email : String
  Password : String
  FirstName : String
  LastName : String
  IsActive : Bool
  IsSuperuser : Bool
  IsDeleted : Bool
  CreatedAt : Nat
  UpdatedAt : Nat
  DeletedAt : Nat
  AvatarURL : String
  newPassword : Bool
  rawPassword : String
  deriving Repr, DecidableEq

/-- The zero `User{}` value (anonymous user). -/
def User.zero : User :=
  { ID := 0, Email := "", Password := "", FirstName := "", LastName := ""
    IsActive := false, IsSuperuser := false, IsDeleted := false
    CreatedAt := 0, UpdatedAt := 0, DeletedAt := 0, AvatarURL := ""
    newPassword := false, rawPassword := "" }

/-- `User.Validate` (model.go lines 34-59): parse-and-normalise the
email, reject an empty staged plaintext when one is being set, trim the
names and reject empty ones.  Go mutates the receiver step by step and
returns an error; only the fully validated value is ever used (the
caller discards the record on error), so the embedding returns the
final value. -/
def User.Validate (u : User) : Except Err User :=
  match parseAddress u.Email with
  | none => .error .invalidAddress
  | some a =>
    if u.newPassword && strBlank u.rawPassword then
      .error .invalidPassword
    else if strIsEmpty (strTrim u.FirstName) || strIsEmpty (strTrim u.LastName) then
      .error .invalidName
    else
      .ok { u with Email := a, FirstName := strTrim u.FirstName, LastName := strTrim u.LastName }

/-- A one-time token of the nonce service (spec §3, "OneTimeToken"). -/
structure Nonce where
  Token : String
  Purpose : String
  Subject : Nat
  ExpiresAt : Nat
  Consumed : Bool
  deriving Repr, DecidableEq

/-- What a row of the SQL `user` table holds: exactly the columns named
in `saveUser`'s INSERT/UPDATE statements.  The unexported transient
fields are not columns, so a persisted row always carries their zero
values. -/
def persistRow (u : User) : User :=
  { u with newPassword := false, rawPassword := "" }

/-- Combined persistent state: the `user` table, the nonce store, the
fresh-UUID source and the fresh-token source. -/
structure St where
  users : List User
  nonces : List Nonce
  uuidCtr : Nat
  nonceCtr : Nat
  deriving Repr, DecidableEq

/-- Failure switches for the external collaborators of one call:
template rendering, mailgun recipient registration, mailgun send, and
nonce issuance. -/
structure Env where
  tplFail : Bool
  rcptFail : Bool
  sendFail : Bool
  nonceFail : Bool
  deriving Repr, DecidableEq

/-- The all-healthy environment. -/
def Env.ok : Env :=
  { tplFail := false, rcptFail := false, sendFail := false, nonceFail := false }

/-- `SELECT * FROM user WHERE email=$1` — at most one row matches
(UNIQUE("email") in the schema), modelled by `find?`. -/
def selectByEmail (st : St) (email : String) : Option User :=
  st.users.find? (fun w => strEqb w.Email email)

/-- `SELECT * FROM user WHERE id=$1`. -/
def selectByID (st : St) (id : Nat) : Option User :=
  st.users.find? (fun w => w.ID == id)

/-- The state after the INSERT branch of `saveUser` commits. -/
def insertRow (st : St) (v : User) : St :=
  { st with users := st.users ++ [persistRow v], uuidCtr := st.uuidCtr + 1 }

/-- The state after the UPDATE branch of `saveUser` commits: the row
with the user's id is overwritten. -/
def updateRow (st : St) (v : User) : St :=
  { st with users := st.users.map (fun w => if w.ID == v.ID then persistRow v else w) }

/-- `saveUser` (service.go lines 385-419): validate, then INSERT with a
freshly generated id when `u.ID` is nil, else UPDATE the row with that
id.  The INSERT respects the schema's UNIQUE("email") constraint; the
transaction either commits the one row or leaves the table unchanged.
Returns the (validated, id-assigned) in-memory user alongside the new
state, mirroring mutation through the Go pointer. -/
def saveUser (st : St) (u : User) : Except Err User × St :=
  match u.Validate with
  | .error e => (.error e, st)
  | .ok v =>
    if v.ID = 0 then
      if st.users.any (fun w => strEqb w.Email v.Email) then (.error .dbError, st)
      else (.ok { v with ID := st.uuidCtr + 1 }, insertRow st { v with ID := st.uuidCtr + 1 })
    else (.ok v, updateRow st v)

/-- Fresh token strings of the nonce service, one per issuance counter
value (models "always produces a fresh, unpredictable token string"). -/
def freshToken (k : Nat) : String :=
  String.mk (List.replicate (k + 1) 't')

/-- The nonce built by an issuance from state `st`. -/
def issuedNonce (st : St) (purpose : String) (subject ttl now : Nat) : Nonce :=
  { Token := freshToken st.nonceCtr, Purpose := purpose, Subject := subject
    ExpiresAt := now + ttl, Consumed := false }

/-- The state after an issuance from state `st`. -/
def appendNonce (st : St) (n : Nonce) : St :=
  { st with nonces := st.nonces ++ [n], nonceCtr := st.nonceCtr + 1 }

/-- `nonce.Service.New` modelled from the one-time-token contract:
issues a fresh token bound to (purpose, subject) with the requested
time-to-live.  `Env.nonceFail` injects an issuance failure. -/
def nonceNew (env : Env) (st : St) (purpose : String) (subject : Nat)
    (ttl now : Nat) : Except Err Nonce × St :=
  if env.nonceFail then (.error .nonceError, st)
  else (.ok (issuedNonce st purpose subject ttl now),
        appendNonce st (issuedNonce st purpose subject ttl now))

/-- The nonce store after a consume of `token` commits. -/
def markConsumed (st : St) (token : String) : St :=
  { st with nonces := st.nonces.map (fun m => if strEqb m.Token token then { m with Consumed := true } else m) }

/-- The consume-time validity judgement: not yet consumed, not past the
deadline, bound to the requested purpose and subject. -/
def nonceOkFor (n : Nonce) (purpose : String) (subject now : Nat) : Bool :=
  !n.Consumed && !(decide (n.ExpiresAt < now)) && strEqb n.Purpose purpose
    && (n.Subject == subject)

/-- `nonce.Service.CheckThenConsume` modelled from the one-time-token
contract: atomic lookup-and-invalidate; fails with an invalid-token
error when the token is missing, already consumed, past its deadline,
or bound to a different purpose or subject. -/
def checkThenConsume (st : St) (token purpose : String) (subject : Nat)
    (now : Nat) : Except Err Nonce × St :=
  match st.nonces.find? (fun n => strEqb n.Token token) with
  | none => (.error .invalidToken, st)
  | some n =>
    if nonceOkFor n purpose subject now
    then (.ok { n with Consumed := true }, markConsumed st token)
    else (.error .invalidToken, st)

/-- `getUserByEmail` (service.go lines 372-382): a missing row surfaces
as `ErrIncorrectAuth`, deliberately indistinguishable from a wrong
password. -/
def getUserByEmail (st : St) (email : String) : Except Err User :=
  match selectByEmail st email with
  | none => .error .incorrectAuth
  | some u => .ok u

/-- The record built by `NewUserLocal` before it is saved:
`createdAt = updatedAt = now`, active, not deleted, bcrypt-hashed and
base64-encoded password, nil id, and the transient fields staged. -/
def freshUser (email password firstName lastName : String)
    (isSuperuser : Bool) (now : Nat) : User :=
  { ID := 0, Email := email, Password := b64encode (bcryptHash password)
    FirstName := firstName, LastName := lastName
    IsSuperuser := isSuperuser, IsActive := true, IsDeleted := false
    CreatedAt := now, UpdatedAt := now, DeletedAt := 0, AvatarURL := ""
    newPassword := true, rawPassword := password }

/-- `NewUserLocal` (service.go lines 97-164): duplicate check on the raw
email, build the record, save, then send the welcome email best-effort —
every failure of the template, recipient or send step is logged
(`glog.Errorf`) and the created user is still returned with a nil
error. -/
def NewUserLocal (env : Env) (st : St)
    (email password firstName lastName : String) (isSuperuser : Bool)
    (now : Nat) : Except Err User × St :=
  match selectByEmail st email with
  | some _ => (.error .alreadyExists, st)
  | none =>
    match saveUser st (freshUser email password firstName lastName isSuperuser now) with
    | (.error e, st') => (.error e, st')
    | (.ok u, st') =>
      if env.tplFail then (.ok u, st')
      else if env.rcptFail then (.ok u, st')
      else if env.sendFail then (.ok u, st')
      else (.ok u, st')

/-- `GetUser` (service.go lines 178-192). -/
def GetUser (st : St) (id : Nat) : Except Err User :=
  if id = 0 then .error .invalidID
  else
    match selectByID st id with
    | none => .error .userNotFound
    | some u => .ok u

/-- `DeleteUser` (service.go lines 215-231): load by id, set the
tombstone flag and timestamp, save; the row is never removed. -/
def DeleteUser (st : St) (id : Nat) (now : Nat) : Except Err User × St :=
  match GetUser st id with
  | .error e => (.error e, st)
  | .ok u =>
    match saveUser st { u with IsDeleted := true, DeletedAt := now } with
    | (.error e, st') => (.error e, st')
    | (.ok u, st') => (.ok u, st')

/-- `AuthenticateUser` (service.go lines 233-262): parse the email,
reject a whitespace-only password, load by normalised email, base64
decode the stored hash, bcrypt-compare.  Note: the function never
inspects `IsDeleted` or `IsActive`. -/
def AuthenticateUser (st : St) (email password : String) : Except Err User :=
  match parseAddress email with
  | none => .error .invalidAddress
  | some a =>
    if strBlank password then .error .invalidPassword
    else
      match getUserByEmail st a with
      | .error e => .error e
      | .ok u =>
        match b64decode u.Password with
        | none => .error .base64Decode
        | some hashed =>
          if bcryptCompare hashed password then .ok u
          else .error .incorrectAuth

/-- Three hours in seconds, the `time.Hour*3` TTL of the reset token. -/
def threeHours : Nat := 3 * 3600

/-- `BeginPasswordReset` (service.go lines 264-308): parse the email,
resolve the user, issue a nonce with purpose "auth.PasswordReset",
subject the user's id and a three-hour TTL, then build and send the
reset email.  Every error — including the template, recipient and send
steps — is returned to the caller; the issued nonce stays in the store
when a later step fails. -/
def BeginPasswordReset (env : Env) (st : St) (email : String) (now : Nat) :
    Except Err Unit × St :=
  match parseAddress email with
  | none => (.error .invalidAddress, st)
  | some a =>
    match getUserByEmail st a with
    | .error e => (.error e, st)
    | .ok u =>
      match nonceNew env st "auth.PasswordReset" u.ID threeHours now with
      | (.error e, st') => (.error e, st')
      | (.ok _, st') =>
        if env.tplFail then (.error .tplError, st')
        else if env.rcptFail then (.error .rcptError, st')
        else if env.sendFail then (.error .sendError, st')
        else (.ok (), st')

/-- The user record staged by `CompletePasswordReset` before saving. -/
def withNewPassword (u : User) (password : String) : User :=
  { u with Password := b64encode (bcryptHash password)
           newPassword := true, rawPassword := password }

/-- `CompletePasswordReset` (service.go lines 310-369): parse the email,
resolve the user, consume the token under purpose "auth.PasswordReset"
and the resolved user's id — before any mutation — then hash the new
password, save, and send the confirmation email best-effort (failures
logged, user still returned). -/
def CompletePasswordReset (env : Env) (st : St)
    (token email password : String) (now : Nat) : Except Err User × St :=
  match parseAddress email with
  | none => (.error .invalidAddress, st)
  | some a =>
    match getUserByEmail st a with
    | .error e => (.error e, st)
    | .ok u =>
      match checkThenConsume st token "auth.PasswordReset" u.ID now with
      | (.error e, st') => (.error e, st')
      | (.ok _, st') =>
        match saveUser st' (withNewPassword u password) with
        | (.error e, st'') => (.error e, st'')
        | (.ok u, st'') =>
          if env.tplFail then (.ok u, st'')
          else if env.rcptFail then (.ok u, st'')
          else if env.sendFail then (.ok u, st'')
          else (.ok u, st'')

/-! ### Session context middleware (transport.http.go) -/

/-- The per-request context value (`authCtx`: the template context plus
the resolved `User`).  The `Data` map is modelled by presence only. -/
structure AuthCtx where
  User : User
  Flashes : List String
  FlashesInfo : List String
  FlashesWarn : List String
  FlashesError : List String
  CsrfToken : String
  deriving Repr, DecidableEq

/-- The fresh context built by `getAuthCtx` when the stored value has
the wrong dynamic type. -/
def AuthCtx.fresh : AuthCtx :=
  { User := User.zero, Flashes := [], FlashesInfo := [], FlashesWarn := []
    FlashesError := [], CsrfToken := "" }

/-- What `http.Request.Context()` may hold under `CtxKey`: a value of
the expected type, or a value of some other type. -/
inductive CtxVal where
  | authCtxVal (c : AuthCtx)
  | otherVal
  deriving Repr, DecidableEq

/-- What `sess.Values["user"]` may hold: a `User` snapshot, or a value
of some other type. -/
inductive SessVal where
  | userVal (u : User)
  | badVal
  deriving Repr, DecidableEq

/-- The pieces of the gorilla session read by `ServeHTTP`. -/
structure Session where
  userEntry : Option SessVal
  flashes : List String
  flashesInfo : List String
  flashesWarn : List String
  flashesError : List String
  deriving Repr, DecidableEq

/-- `getAuthCtx` (transport.http.go lines 211-231).  `CtxGet` yields
`ErrCtxNoValue` when the request carries no value under `CtxKey`; in
that case the `err != ErrCtxNoValue` guard skips the recovery block and
the function returns the nil pointer (modelled as `none`) with a nil
error.  Only a present value of the wrong type is replaced by a fresh
context. -/
def getAuthCtx (stored : Option CtxVal) : Except Err (Option AuthCtx) :=
  match stored with
  | none => .ok none
  | some (.authCtxVal c) => .ok (some c)
  | some .otherVal => .ok (some AuthCtx.fresh)

/-- Outcome of the middleware: the context handed to the downstream
handler, or a run-time fault (nil-pointer dereference). -/
inductive HResult where
  | served (c : AuthCtx)
  | panicked
  deriving Repr, DecidableEq

/-- The context populated by `ServeHTTP` from the session and the CSRF
token, with the session's "user" entry resolved — a missing or
ill-typed entry downgrades to the zero `User`. -/
def populateCtx (ctx : AuthCtx) (sess : Session) (csrfTok : String) : AuthCtx :=
  { ctx with Flashes := sess.flashes, FlashesInfo := sess.flashesInfo
             FlashesWarn := sess.flashesWarn, FlashesError := sess.flashesError
             CsrfToken := csrfTok
             User := match sess.userEntry with
                     | some (.userVal u) => u
                     | _ => User.zero }

/-- `ServeHTTP` (transport.http.go lines 240-264): load the session,
get the request context (an error is only logged), populate flashes,
CSRF token and the resolved user on it, and invoke the next handler.
The field writes `ctx.Flashes = …` dereference the pointer returned by
`getAuthCtx`; when that pointer is nil the handler faults. -/
def ServeHTTP (stored : Option CtxVal) (sess : Session) (csrfTok : String) :
    HResult :=
  match getAuthCtx stored with
  | .error _ => .panicked
  | .ok none => .panicked
  | .ok (some ctx) => .served (populateCtx ctx sess csrfTok)

/-- The User value `NewUserLocal` hands back on a successful insert
from state `st`: the fresh record, validated (normalised email, trimmed
names) and carrying the newly generated identifier. -/
def registeredUser (st : St) (email pw fn ln a : String) (su : Bool)
    (now : Nat) : User :=
  { freshUser email pw fn ln su now with
      Email := a, FirstName := strTrim fn, LastName := strTrim ln
      ID := st.uuidCtr + 1 }

/-! ### Concrete fixtures for closed theorems and witnesses -/

/-- The empty store. -/
def stEmpty : St := { users := [], nonces := [], uuidCtr := 0, nonceCtr := 0 }

/-- A soft-deleted user whose password is "hunter2". -/
def daveUser : User :=
  { ID := 1, Email := "dave@example.com", Password := b64encode (bcryptHash "hunter2")
    FirstName := "Dave", LastName := "Doe", IsActive := true, IsSuperuser := false
    IsDeleted := true, CreatedAt := 1, UpdatedAt := 1, DeletedAt := 2, AvatarURL := ""
    newPassword := false, rawPassword := "" }

/-- A store holding only the deleted user. -/
def stDave : St := { users := [daveUser], nonces := [], uuidCtr := 1, nonceCtr := 0 }

/-- An ordinary active user whose password is "s3cret". -/
def aliceUser : User :=
  { ID := 1, Email := "alice@example.com", Password := b64encode (bcryptHash "s3cret")
    FirstName := "Alice", LastName := "Ng", IsActive := true, IsSuperuser := false
    IsDeleted := false, CreatedAt := 1, UpdatedAt := 1, DeletedAt := 0, AvatarURL := ""
    newPassword := false, rawPassword := "" }

/-- A store holding only the active user. -/
def stAlice : St := { users := [aliceUser], nonces := [], uuidCtr := 1, nonceCtr := 0 }

/-- An inactive, tombstoned row. -/
def goneUser : User :=
  { ID := 1, Email := "gone@example.com", Password := b64encode (bcryptHash "old")
    FirstName := "Gone", LastName := "User", IsActive := false, IsSuperuser := false
    IsDeleted := true, CreatedAt := 1, UpdatedAt := 1, DeletedAt := 2, AvatarURL := ""
    newPassword := false, rawPassword := "" }

/-- A store holding only the tombstoned row. -/
def stGone : St := { users := [goneUser], nonces := [], uuidCtr := 1, nonceCtr := 0 }

/-- Environment where only the mailgun send step fails. -/
def envSendFail : Env :=
  { tplFail := false, rcptFail := false, sendFail := true, nonceFail := false }

/-- Environment where only nonce issuance fails. -/
def envNonceFail : Env :=
  { tplFail := false, rcptFail := false, sendFail := false, nonceFail := true }

/-- A live reset nonce for the active user. -/
def aliceNonce : Nonce :=
  { Token := freshToken 0, Purpose := "auth.PasswordReset", Subject := 1
    ExpiresAt := 100, Consumed := false }

/-- The active user's store with a live reset nonce. -/
def stAliceNonce : St :=
  { users := [aliceUser], nonces := [aliceNonce], uuidCtr := 1, nonceCtr := 1 }

/-- The User value returned by registering "new@example.com" into the
empty store at time 5. -/
def regUser1 : User :=
  { ID := 1, Email := "new@example.com", Password := b64encode (bcryptHash "pw1")
    FirstName := "Ann", LastName := "Lee", IsActive := true, IsSuperuser := false
    IsDeleted := false, CreatedAt := 5, UpdatedAt := 5, DeletedAt := 0, AvatarURL := ""
    newPassword := true, rawPassword := "pw1" }

/-- The User value returned by completing the active user's password
reset with "newpw". -/
def compUser1 : User :=
  { aliceUser with Password := b64encode (bcryptHash "newpw")
                   newPassword := true, rawPassword := "newpw" }

/-- A session with no stored identity and no flashes. -/
def sessEmpty : Session :=
  { userEntry := none, flashes := [], flashesInfo := [], flashesWarn := []
    flashesError := [] }

/-! ### Decidability helper -/

instance {ε α : Type} [DecidableEq ε] [DecidableEq α] : DecidableEq (Except ε α) :=
  fun a b =>
    match a, b with
    | .error e, .error f =>
      if h : e = f then .isTrue (by rw [h]) else .isFalse (by simp [h])
    | .error _, .ok _ => .isFalse (by simp)
    | .ok _, .error _ => .isFalse (by simp)
    | .ok x, .ok y =>
      if h : x = y then .isTrue (by rw [h]) else .isFalse (by simp [h])

/-! ### Helper lemmas -/

theorem strEqb_eq {a b : String} (h : strEqb a b = true) : a = b := by
  cases a with
  | mk da =>
    cases b with
    | mk db =>
      simp only [strEqb, beq_iff_eq] at h
      rw [h]

theorem strEqb_refl (a : String) : strEqb a a = true := by
  simp [strEqb]

theorem find_append_none {α : Type} (p : α → Bool) {l : List α}
    (h : l.find? p = none) (x : α) :
    (l ++ [x]).find? p = if p x then some x else none := by
  induction l with
  | nil => cases hpx : p x <;> simp [List.find?_cons, hpx]
  | cons a t ih =>
    rw [List.find?_cons] at h
    cases hpa : p a with
    | true => rw [hpa] at h; exact absurd h (by simp)
    | false =>
      rw [hpa] at h
      rw [List.cons_append, List.find?_cons, hpa]
      exact ih h

theorem find_map_replace_same {α : Type} (p : α → Bool) {l : List α} {n : α}
    (r : α) (hf : l.find? p = some n) (hpr : p r = true) :
    (l.map (fun w => if p w then r else w)).find? p = some r := by
  induction l with
  | nil => simp at hf
  | cons a t ih =>
    rw [List.find?_cons] at hf
    cases hpa : p a with
    | true =>
      rw [List.map_cons, List.find?_cons]
      rw [if_pos hpa, hpr]
    | false =>
      rw [hpa] at hf
      rw [List.map_cons, List.find?_cons, if_neg (by simp [hpa]), hpa]
      exact ih hf

theorem find_map_modify {α : Type} (p : α → Bool) (f : α → α) {l : List α}
    {n : α} (hf : l.find? p = some n) (hpf : p (f n) = true) :
    (l.map (fun w => if p w then f w else w)).find? p = some (f n) := by
  induction l with
  | nil => simp at hf
  | cons a t ih =>
    rw [List.find?_cons] at hf
    cases hpa : p a with
    | true =>
      rw [hpa] at hf
      have han : a = n := by simpa using hf
      subst han
      rw [List.map_cons, List.find?_cons, if_pos hpa, hpf]
    | false =>
      rw [hpa] at hf
      rw [List.map_cons, List.find?_cons, if_neg (by simp [hpa]), hpa]
      exact ih hf

theorem find_map_replace {α : Type} (p q : α → Bool) {l : List α} {u : α}
    (r : α) (hf : l.find? p = some u)
    (huniq : ∀ w ∈ l, q w = true → w = u)
    (hqu : q u = true) (hpr : p r = true) :
    (l.map (fun w => if q w then r else w)).find? p = some r := by
  induction l with
  | nil => simp at hf
  | cons a t ih =>
    rw [List.find?_cons] at hf
    cases hpa : p a with
    | true =>
      rw [hpa] at hf
      have hau : a = u := by simpa using hf
      rw [List.map_cons, List.find?_cons, if_pos (hau ▸ hqu), hpr]
    | false =>
      rw [hpa] at hf
      have hqa : q a = false := by
        cases hqa : q a with
        | false => rfl
        | true =>
          have hau := huniq a (List.mem_cons_self a t) hqa
          have hpu : p u = true := List.find?_some hf
          rw [hau, hpu] at hpa
          exact absurd hpa (by simp)
      rw [List.map_cons, List.find?_cons, if_neg (by simp [hqa]), hpa]
      exact ih hf (fun w hw hq => huniq w (List.mem_cons_of_mem a hw) hq)

theorem dropWhile_eq_self_of_any_false {α : Type} {p : α → Bool} {l : List α}
    (h : l.any p = false) : l.dropWhile p = l := by
  cases l with
  | nil => rfl
  | cons a t =>
    simp only [List.any_cons, Bool.or_eq_false_iff] at h
    rw [List.dropWhile_cons, h.1]
    simp

theorem trimChars_eq_self_of_any_false {l : List Char}
    (h : l.any isSpaceChar = false) : trimChars l = l := by
  unfold trimChars
  rw [dropWhile_eq_self_of_any_false h]
  rw [dropWhile_eq_self_of_any_false (by simpa using h)]
  exact List.reverse_reverse l

theorem parseAddress_some_valid {s a : String} (h : parseAddress s = some a) :
    isValidAddrChars a.data = true := by
  unfold parseAddress at h
  split at h
  · rename_i hvalid
    have hmk : String.mk (addrCandidate s) = a := by simpa using h
    rw [← hmk]
    exact hvalid
  · exact absurd h (by simp)

theorem parseAddress_idem {a : List Char} (h : isValidAddrChars a = true) :
    parseAddress (String.mk a) = some (String.mk a) := by
  have hcomp := h
  unfold isValidAddrChars at hcomp
  simp only [Bool.and_eq_true, Bool.not_eq_true'] at hcomp
  obtain ⟨⟨⟨hsp, hgt⟩, _⟩, _⟩ := hcomp
  have hcand : addrCandidate (String.mk a) = a := by
    unfold addrCandidate
    rw [show (String.mk a).data = a from rfl]
    rw [trimChars_eq_self_of_any_false hsp]
    unfold unwrapAngle
    rw [hgt]
    simp
  unfold parseAddress
  rw [hcand, h]
  simp

theorem parseAddress_norm {s a : String} (h : parseAddress s = some a) :
    parseAddress a = some a := by
  have hv := parseAddress_some_valid h
  have hi := parseAddress_idem hv
  cases a with
  | mk l => exact hi

theorem b64_roundtrip (s : String) : b64decode (b64encode s) = some s := by
  cases s with
  | mk l => rfl

theorem bcryptCompare_hash_self (p : String) :
    bcryptCompare (bcryptHash p) p = true :=
  strEqb_refl _

theorem checkThenConsume_found {st : St} {token purpose : String}
    {subject now : Nat} {n : Nonce}
    (hn : st.nonces.find? (fun m => strEqb m.Token token) = some n)
    (ho : nonceOkFor n purpose subject now = true) :
    checkThenConsume st token purpose subject now =
      (.ok { n with Consumed := true }, markConsumed st token) := by
  simp [checkThenConsume, hn, ho]

theorem checkThenConsume_error_eq {st : St} {token purpose : String}
    {subject now : Nat} {e : Err}
    (h : (checkThenConsume st token purpose subject now).1 = .error e) :
    checkThenConsume st token purpose subject now = (.error .invalidToken, st) := by
  unfold checkThenConsume at h ⊢
  cases hn : st.nonces.find? (fun m => strEqb m.Token token) with
  | none => rfl
  | some n =>
    rw [hn] at h
    cases ho : nonceOkFor n purpose subject now with
    | true => simp [ho] at h
    | false => simp [ho]

theorem checkThenConsume_ok_eq {st : St} {token purpose : String}
    {subject now : Nat} {n' : Nonce} {st' : St}
    (h : checkThenConsume st token purpose subject now = (.ok n', st')) :
    ∃ n, st.nonces.find? (fun m => strEqb m.Token token) = some n ∧
      nonceOkFor n purpose subject now = true ∧
      n' = { n with Consumed := true } ∧
      st' = markConsumed st token := by
  unfold checkThenConsume at h
  cases hn : st.nonces.find? (fun m => strEqb m.Token token) with
  | none => rw [hn] at h; simp at h
  | some n =>
    rw [hn] at h
    cases ho : nonceOkFor n purpose subject now with
    | false => simp [ho] at h
    | true =>
      simp only [ho, if_true, Prod.mk.injEq, Except.ok.injEq] at h
      exact ⟨n, rfl, ho, h.1.symm, h.2.symm⟩

theorem checkThenConsume_users (st : St) (token purpose : String)
    (subject now : Nat) :
    ((checkThenConsume st token purpose subject now).2).users = st.users := by
  unfold checkThenConsume
  cases hn : st.nonces.find? (fun m => strEqb m.Token token) with
  | none => rfl
  | some n =>
    cases ho : nonceOkFor n purpose subject now with
    | true => simp [ho, markConsumed]
    | false => simp [ho]

theorem validate_ok_fields {u w : User} (h : u.Validate = .ok w) :
    w.rawPassword = u.rawPassword ∧ w.newPassword = u.newPassword ∧
    w.ID = u.ID ∧ w.Password = u.Password ∧ w.IsActive = u.IsActive ∧
    w.IsSuperuser = u.IsSuperuser ∧ w.IsDeleted = u.IsDeleted ∧
    w.CreatedAt = u.CreatedAt ∧ w.UpdatedAt = u.UpdatedAt ∧
    w.DeletedAt = u.DeletedAt ∧ w.AvatarURL = u.AvatarURL := by
  unfold User.Validate at h
  split at h
  · exact absurd h (by simp)
  · split at h
    · exact absurd h (by simp)
    · split at h
      · exact absurd h (by simp)
      · injection h with h
        subst h
        exact ⟨rfl, rfl, rfl, rfl, rfl, rfl, rfl, rfl, rfl, rfl, rfl⟩

theorem validate_eval {u : User} {a : String}
    (hp : parseAddress u.Email = some a)
    (hpw : (u.newPassword && strBlank u.rawPassword) = false)
    (hnm : (strIsEmpty (strTrim u.FirstName) || strIsEmpty (strTrim u.LastName)) = false) :
    u.Validate = .ok { u with Email := a, FirstName := strTrim u.FirstName, LastName := strTrim u.LastName } := by
  unfold User.Validate
  rw [hp]
  simp [hpw, hnm]

theorem saveUser_insert_eq {st : St} {u w : User}
    (hv : u.Validate = .ok w) (hid : w.ID = 0)
    (hdup : st.users.any (fun x => strEqb x.Email w.Email) = false) :
    saveUser st u = (.ok { w with ID := st.uuidCtr + 1 }, insertRow st { w with ID := st.uuidCtr + 1 }) := by
  simp [saveUser, hv, hid, hdup]

theorem saveUser_update_eq (st : St) {u w : User}
    (hv : u.Validate = .ok w) (hid : ¬ w.ID = 0) :
    saveUser st u = (.ok w, updateRow st w) := by
  simp [saveUser, hv, hid]

theorem saveUser_ok_fields {st : St} {u v : User} {st' : St}
    (h : saveUser st u = (.ok v, st')) :
    v.rawPassword = u.rawPassword ∧ v.newPassword = u.newPassword ∧
    v.Password = u.Password := by
  cases hv : u.Validate with
  | error e => simp [saveUser, hv] at h
  | ok w =>
    obtain ⟨h1, h2, -, h3, -⟩ := validate_ok_fields hv
    by_cases hid : w.ID = 0
    · cases hdup : st.users.any (fun x => strEqb x.Email w.Email) with
      | true => simp [saveUser, hv, hid, hdup] at h
      | false =>
        rw [saveUser_insert_eq hv hid hdup] at h
        simp only [Prod.mk.injEq, Except.ok.injEq] at h
        obtain ⟨hv1, -⟩ := h
        subst hv1
        exact ⟨h1, h2, h3⟩
    · rw [saveUser_update_eq st hv hid] at h
      simp only [Prod.mk.injEq, Except.ok.injEq] at h
      obtain ⟨hv1, -⟩ := h
      subst hv1
      exact ⟨h1, h2, h3⟩

theorem saveUser_users_mem {st : St} {u w : User}
    (hw : w ∈ (saveUser st u).2.users) :
    w ∈ st.users ∨ (w.newPassword = false ∧ w.rawPassword = "") := by
  cases hv : u.Validate with
  | error e =>
    simp only [saveUser, hv] at hw
    exact Or.inl hw
  | ok v =>
    by_cases hid : v.ID = 0
    · cases hdup : st.users.any (fun x => strEqb x.Email v.Email) with
      | true =>
        simp only [saveUser, hv, hid, hdup, if_pos, if_true] at hw
        exact Or.inl (by simpa using hw)
      | false =>
        rw [saveUser_insert_eq hv hid hdup] at hw
        simp only [insertRow, List.mem_append, List.mem_singleton] at hw
        cases hw with
        | inl h => exact Or.inl h
        | inr h => exact Or.inr (by rw [h]; exact ⟨rfl, rfl⟩)
    · rw [saveUser_update_eq st hv hid] at hw
      simp only [updateRow, List.mem_map] at hw
      obtain ⟨x, hx, hfx⟩ := hw
      by_cases hxid : (x.ID == v.ID) = true
      · rw [if_pos hxid] at hfx
        exact Or.inr (by rw [← hfx]; exact ⟨rfl, rfl⟩)
      · rw [if_neg hxid] at hfx
        exact Or.inl (hfx ▸ hx)

theorem if3_const {α : Type} (b1 b2 b3 : Bool) (x : α) :
    (if b1 then x else if b2 then x else if b3 then x else x) = x := by
  cases b1 <;> cases b2 <;> cases b3 <;> rfl

theorem newUserLocal_eq_of_saved {env : Env} {st : St}
    {email pw fn ln : String} {su : Bool} {now : Nat} {r : Except Err User}
    {st' : St}
    (hsel : selectByEmail st email = none)
    (hs : saveUser st (freshUser email pw fn ln su now) = (r, st')) :
    NewUserLocal env st email pw fn ln su now = (r, st') := by
  cases r with
  | error e => simp only [NewUserLocal, hsel, hs]
  | ok u => simp only [NewUserLocal, hsel, hs, if3_const]

theorem newUserLocal_users_mem {env : Env} {st : St}
    {email pw fn ln : String} {su : Bool} {now : Nat} {w : User}
    (hw : w ∈ (NewUserLocal env st email pw fn ln su now).2.users) :
    w ∈ st.users ∨ (w.newPassword = false ∧ w.rawPassword = "") := by
  cases hsel : selectByEmail st email with
  | some u =>
    simp only [NewUserLocal, hsel] at hw
    exact Or.inl hw
  | none =>
    cases hs : saveUser st (freshUser email pw fn ln su now) with
    | mk r st' =>
      rw [newUserLocal_eq_of_saved hsel hs] at hw
      have hst : st' = (saveUser st (freshUser email pw fn ln su now)).2 := by rw [hs]
      rw [hst] at hw
      exact saveUser_users_mem hw

theorem completePasswordReset_users_mem {env : Env} {st : St}
    {token email pw : String} {now : Nat} {w : User}
    (hw : w ∈ (CompletePasswordReset env st token email pw now).2.users) :
    w ∈ st.users ∨ (w.newPassword = false ∧ w.rawPassword = "") := by
  cases hpa : parseAddress email with
  | none =>
    simp only [CompletePasswordReset, hpa] at hw
    exact Or.inl hw
  | some a =>
    cases hg : getUserByEmail st a with
    | error e =>
      simp only [CompletePasswordReset, hpa, hg] at hw
      exact Or.inl hw
    | ok u =>
      cases hc : checkThenConsume st token "auth.PasswordReset" u.ID now with
      | mk r stc =>
        have hcu : stc.users = st.users := by
          have h2 := checkThenConsume_users st token "auth.PasswordReset" u.ID now
          rw [hc] at h2
          exact h2
        cases r with
        | error e =>
          simp only [CompletePasswordReset, hpa, hg, hc] at hw
          exact Or.inl (hcu ▸ hw)
        | ok n =>
          cases hs : saveUser stc (withNewPassword u pw) with
          | mk r2 st2 =>
            have hst2 : st2 = (saveUser stc (withNewPassword u pw)).2 := by rw [hs]
            cases r2 with
            | error e =>
              simp only [CompletePasswordReset, hpa, hg, hc, hs] at hw
              rw [hst2] at hw
              cases saveUser_users_mem hw with
              | inl h => exact Or.inl (hcu ▸ h)
              | inr h => exact Or.inr h
            | ok v =>
              simp only [CompletePasswordReset, hpa, hg, hc, hs, if3_const] at hw
              rw [hst2] at hw
              cases saveUser_users_mem hw with
              | inl h => exact Or.inl (hcu ▸ h)
              | inr h => exact Or.inr h

theorem saveUser_dup_eq {st : St} {u w : User}
    (hv : u.Validate = .ok w) (hid : w.ID = 0)
    (hdup : st.users.any (fun x => strEqb x.Email w.Email) = true) :
    saveUser st u = (.error .dbError, st) := by
  simp [saveUser, hv, hid, hdup]

theorem find?_eq_none_of_any_false {α : Type} {p : α → Bool} {l : List α}
    (h : l.any p = false) : l.find? p = none := by
  induction l with
  | nil => rfl
  | cons a t ih =>
    simp only [List.any_cons, Bool.or_eq_false_iff] at h
    rw [List.find?_cons, h.1]
    exact ih h.2

theorem newUserLocal_ok_fields {env : Env} {st : St}
    {email pw fn ln : String} {su : Bool} {now : Nat} {uR : User}
    (hR : (NewUserLocal env st email pw fn ln su now).1 = .ok uR) :
    uR.rawPassword = pw ∧ uR.newPassword = true := by
  cases hsel : selectByEmail st email with
  | some u =>
    simp only [NewUserLocal, hsel] at hR
    exact absurd hR (by simp)
  | none =>
    cases hs : saveUser st (freshUser email pw fn ln su now) with
    | mk r st' =>
      rw [newUserLocal_eq_of_saved hsel hs] at hR
      cases r with
      | error e => exact absurd hR (by simp)
      | ok v =>
        have hv : v = uR := by simpa using hR
        obtain ⟨h1, h2, -⟩ := saveUser_ok_fields hs
        subst hv
        exact ⟨h1, h2⟩

theorem completePasswordReset_ok_fields {env : Env} {st : St}
    {token email pw : String} {now : Nat} {uC : User}
    (hC : (CompletePasswordReset env st token email pw now).1 = .ok uC) :
    uC.rawPassword = pw ∧ uC.newPassword = true ∧
    uC.Password = b64encode (bcryptHash pw) := by
  cases hpa : parseAddress email with
  | none =>
    simp only [CompletePasswordReset, hpa] at hC
    exact absurd hC (by simp)
  | some a =>
    cases hg : getUserByEmail st a with
    | error e =>
      simp only [CompletePasswordReset, hpa, hg] at hC
      exact absurd hC (by simp)
    | ok u =>
      cases hc : checkThenConsume st token "auth.PasswordReset" u.ID now with
      | mk r stc =>
        cases r with
        | error e =>
          simp only [CompletePasswordReset, hpa, hg, hc] at hC
          exact absurd hC (by simp)
        | ok n =>
          cases hs : saveUser stc (withNewPassword u pw) with
          | mk r2 st2 =>
            cases r2 with
            | error e =>
              simp only [CompletePasswordReset, hpa, hg, hc, hs] at hC
              exact absurd hC (by simp)
            | ok v =>
              simp only [CompletePasswordReset, hpa, hg, hc, hs, if3_const] at hC
              have hv : v = uC := by simpa using hC
              obtain ⟨h1, h2, h3⟩ := saveUser_ok_fields hs
              subst hv
              exact ⟨h1, h2, h3⟩

theorem freshUser_validate (su : Bool) (now : Nat) {email pw fn ln : String}
    {a : String}
    (hp : parseAddress email = some a)
    (hpw : strBlank pw = false)
    (hfn : strIsEmpty (strTrim fn) = false)
    (hln : strIsEmpty (strTrim ln) = false) :
    (freshUser email pw fn ln su now).Validate =
      .ok { freshUser email pw fn ln su now with
              Email := a, FirstName := strTrim fn, LastName := strTrim ln } := by
  apply validate_eval
  · exact hp
  · show (true && strBlank pw) = false
    simpa using hpw
  · show (strIsEmpty (strTrim fn) || strIsEmpty (strTrim ln)) = false
    simp [hfn, hln]

theorem freshUser_saved {st : St} {email pw fn ln a : String} {su : Bool}
    {now : Nat}
    (hp : parseAddress email = some a)
    (hpw : strBlank pw = false)
    (hfn : strIsEmpty (strTrim fn) = false)
    (hln : strIsEmpty (strTrim ln) = false)
    (hnodup : st.users.any (fun w => strEqb w.Email a) = false) :
    saveUser st (freshUser email pw fn ln su now) =
      (.ok (registeredUser st email pw fn ln a su now),
       insertRow st (registeredUser st email pw fn ln a su now)) := by
  have hval := freshUser_validate su now hp hpw hfn hln
  exact saveUser_insert_eq hval rfl hnodup

theorem newUserLocal_insert_eq (env : Env) {st : St}
    {email pw fn ln a : String} {su : Bool} {now : Nat}
    (hp : parseAddress email = some a)
    (hpw : strBlank pw = false)
    (hfn : strIsEmpty (strTrim fn) = false)
    (hln : strIsEmpty (strTrim ln) = false)
    (hsel : selectByEmail st email = none)
    (hnodup : st.users.any (fun w => strEqb w.Email a) = false) :
    NewUserLocal env st email pw fn ln su now =
      (.ok (registeredUser st email pw fn ln a su now),
       insertRow st (registeredUser st email pw fn ln a su now)) :=
  newUserLocal_eq_of_saved hsel (freshUser_saved hp hpw hfn hln hnodup)

theorem selectByID_updateRow {st : St} {id : Nat} {u v : User}
    (hu : selectByID st id = some u) (hvid : v.ID = u.ID) :
    selectByID (updateRow st v) id = some (persistRow v) := by
  have hu2 : st.users.find? (fun w => w.ID == id) = some u := hu
  have huid : u.ID = id := by simpa using List.find?_some hu2
  show (st.users.map (fun w => if w.ID == v.ID then persistRow v else w)).find?
      (fun w => w.ID == id) = some (persistRow v)
  rw [hvid, huid]
  refine find_map_replace_same (fun w => w.ID == id) (persistRow v) hu2 ?_
  show ((persistRow v).ID == id) = true
  rw [show (persistRow v).ID = id from hvid.trans huid]
  exact beq_self_eq_true id

theorem updateRow_length (st : St) (v : User) :
    (updateRow st v).users.length = st.users.length := by
  unfold updateRow
  exact List.length_map _ _

theorem deleteUser_eq {st : St} {id now : Nat} {u : User}
    (hid0 : id ≠ 0)
    (hu : selectByID st id = some u)
    (hpe : parseAddress u.Email = some u.Email)
    (hnp : u.newPassword = false)
    (hft : strTrim u.FirstName = u.FirstName)
    (hlt : strTrim u.LastName = u.LastName)
    (hfe : strIsEmpty u.FirstName = false)
    (hle : strIsEmpty u.LastName = false) :
    DeleteUser st id now =
      (.ok { u with IsDeleted := true, DeletedAt := now },
       updateRow st { u with IsDeleted := true, DeletedAt := now }) := by
  have hu2 : st.users.find? (fun w => w.ID == id) = some u := hu
  have huid : u.ID = id := by simpa using List.find?_some hu2
  have hget : GetUser st id = .ok u := by
    unfold GetUser
    rw [if_neg hid0, hu]
  have hval0 := validate_eval (u := { u with IsDeleted := true, DeletedAt := now })
    (a := u.Email) hpe (by show (u.newPassword && strBlank u.rawPassword) = false; rw [hnp]; rfl)
    (by show (strIsEmpty (strTrim u.FirstName) || strIsEmpty (strTrim u.LastName)) = false
        rw [hft, hlt, hfe, hle]
        rfl)
  rw [hft, hlt] at hval0
  have hval : ({ u with IsDeleted := true, DeletedAt := now } : User).Validate =
      .ok { u with IsDeleted := true, DeletedAt := now } := hval0
  have hidne : ¬ ({ u with IsDeleted := true, DeletedAt := now } : User).ID = 0 := by
    show ¬ u.ID = 0
    rw [huid]
    exact hid0
  have hsave := saveUser_update_eq st hval hidne
  simp only [DeleteUser, hget, hsave]

theorem completePasswordReset_eq_ok (env : Env) {st : St}
    {token email a pw : String} {now : Nat} {u : User} {n : Nonce}
    (hp : parseAddress email = some a)
    (hu : selectByEmail st a = some u)
    (hn : st.nonces.find? (fun m => strEqb m.Token token) = some n)
    (ho : nonceOkFor n "auth.PasswordReset" u.ID now = true)
    (hpw : strBlank pw = false)
    (hft : strTrim u.FirstName = u.FirstName)
    (hlt : strTrim u.LastName = u.LastName)
    (hfe : strIsEmpty u.FirstName = false)
    (hle : strIsEmpty u.LastName = false)
    (hid : u.ID ≠ 0) :
    CompletePasswordReset env st token email pw now =
      (.ok (withNewPassword u pw),
       updateRow (markConsumed st token) (withNewPassword u pw)) := by
  have hu2 : st.users.find? (fun w => strEqb w.Email a) = some u := hu
  have hbeq := List.find?_some hu2
  have hEmail : u.Email = a := strEqb_eq (by exact hbeq)
  subst hEmail
  have hg : getUserByEmail st u.Email = .ok u := by
    unfold getUserByEmail
    rw [hu]
  have hcons := checkThenConsume_found hn ho
  have hval0 := validate_eval
    (u := { u with Password := b64encode (bcryptHash pw), newPassword := true, rawPassword := pw })
    (a := u.Email) (parseAddress_norm hp)
    (by show (true && strBlank pw) = false; simpa using hpw)
    (by show (strIsEmpty (strTrim u.FirstName) || strIsEmpty (strTrim u.LastName)) = false
        rw [hft, hlt, hfe, hle]
        rfl)
  rw [hft, hlt] at hval0
  have hval : (withNewPassword u pw).Validate = .ok (withNewPassword u pw) := hval0
  have hidne : ¬ (withNewPassword u pw).ID = 0 := hid
  have hsave := saveUser_update_eq (markConsumed st token) hval hidne
  simp only [CompletePasswordReset, hp, hg, hcons, hsave, if3_const]

/-! ### Claim theorems -/

/-- C1: the spec requires a deleted user to fail authentication with
`IncorrectCredentials`; `AuthenticateUser` never inspects `isDeleted`,
so a stored deleted user with the correct email and password
authenticates successfully instead of failing. -/
theorem authenticateUser_accepts_deleted_user :
    daveUser.IsDeleted = true ∧
    AuthenticateUser stDave "dave@example.com" "hunter2" = .ok daveUser ∧
    AuthenticateUser stDave "dave@example.com" "hunter2" ≠ .error .incorrectAuth := by
  decide

/-- C3: the spec requires the middleware to downgrade a missing context
value to the anonymous user and never fault; on a fresh request with no
stored context value `getAuthCtx` returns a nil context together with a
nil error, and `ServeHTTP` then dereferences the nil pointer: the
request faults instead of completing with the anonymous user. -/
theorem serveHTTP_fresh_request_panics :
    getAuthCtx none = .ok none ∧
    ServeHTTP none sessEmpty "csrf" = .panicked ∧
    ServeHTTP none sessEmpty "csrf" ≠ .served (populateCtx AuthCtx.fresh sessEmpty "csrf") := by
  decide

/-- C5: `AuthenticateUser` on a well-formed email with no matching row
and on an existing user's email with a non-matching password returns
exactly the same error value `ErrIncorrectAuth`; the two failure causes
are indistinguishable to the caller. -/
theorem authenticateUser_indistinguishable (st1 st2 : St)
    (e1 p1 e2 p2 a1 a2 hstored : String) (u : User)
    (hp1 : parseAddress e1 = some a1) (hb1 : strBlank p1 = false)
    (hmiss : selectByEmail st1 a1 = none)
    (hp2 : parseAddress e2 = some a2) (hb2 : strBlank p2 = false)
    (hhit : selectByEmail st2 a2 = some u)
    (hdec : b64decode u.Password = some hstored)
    (hwrong : bcryptCompare hstored p2 = false) :
    AuthenticateUser st1 e1 p1 = .error .incorrectAuth ∧
    AuthenticateUser st2 e2 p2 = .error .incorrectAuth ∧
    AuthenticateUser st1 e1 p1 = AuthenticateUser st2 e2 p2 := by
  have h1 : AuthenticateUser st1 e1 p1 = .error .incorrectAuth := by
    simp only [AuthenticateUser, hp1, hb1, getUserByEmail, hmiss, Bool.false_eq_true, if_false]
  have h2 : AuthenticateUser st2 e2 p2 = .error .incorrectAuth := by
    simp only [AuthenticateUser, hp2, hb2, getUserByEmail, hhit, hdec, hwrong,
      Bool.false_eq_true, if_false]
  exact ⟨h1, h2, h1.trans h2.symm⟩

/-- C5 witness: a missing account and a wrong password at concrete
inputs, both rejected with the same `ErrIncorrectAuth`. -/
theorem authenticateUser_indistinguishable_witness :
    AuthenticateUser stEmpty "nobody@example.com" "pw" = .error .incorrectAuth ∧
    AuthenticateUser stAlice "alice@example.com" "wrongpw" = .error .incorrectAuth ∧
    AuthenticateUser stEmpty "nobody@example.com" "pw" =
      AuthenticateUser stAlice "alice@example.com" "wrongpw" :=
  authenticateUser_indistinguishable stEmpty stAlice "nobody@example.com" "pw"
    "alice@example.com" "wrongpw" "nobody@example.com" "alice@example.com"
    (bcryptHash "s3cret") aliceUser (by decide) (by decide) (by decide)
    (by decide) (by decide) (by decide) (by decide) (by decide)

/-- C2 counterexample: the user is resolved and the token is issued
(the nonce store grows), yet a failing send makes `BeginPasswordReset`
return the delivery error instead of success. -/
theorem beginPasswordReset_send_failure_cex :
    (BeginPasswordReset envSendFail stAlice "alice@example.com" 10).1 = .error .sendError ∧
    (BeginPasswordReset envSendFail stAlice "alice@example.com" 10).1 ≠ .ok () ∧
    (BeginPasswordReset envSendFail stAlice "alice@example.com" 10).2.nonces ≠ [] := by
  decide

/-- C2 amended: once the token has been issued, a failure in building
or delivering the reset email is NOT caught: `BeginPasswordReset`
returns the collaborator's error to its caller, with the issued token
left in the nonce store. -/
theorem beginPasswordReset_email_failure_propagates
    (env : Env) (st : St) (email a : String) (u : User) (now : Nat)
    (hp : parseAddress email = some a)
    (hu : selectByEmail st a = some u)
    (hn : env.nonceFail = false)
    (hf : env.tplFail = true ∨ env.rcptFail = true ∨ env.sendFail = true) :
    (∃ e, (BeginPasswordReset env st email now).1 = .error e) ∧
    (BeginPasswordReset env st email now).2 =
      appendNonce st (issuedNonce st "auth.PasswordReset" u.ID threeHours now) := by
  cases ht : env.tplFail with
  | true =>
    constructor
    · exact ⟨.tplError, by
        simp only [BeginPasswordReset, hp, getUserByEmail, hu, nonceNew, hn,
          Bool.false_eq_true, if_false, ht, if_true]⟩
    · simp only [BeginPasswordReset, hp, getUserByEmail, hu, nonceNew, hn,
        Bool.false_eq_true, if_false, ht, if_true]
  | false =>
    cases hr : env.rcptFail with
    | true =>
      constructor
      · exact ⟨.rcptError, by
          simp only [BeginPasswordReset, hp, getUserByEmail, hu, nonceNew, hn,
            Bool.false_eq_true, if_false, ht, hr, if_true]⟩
      · simp only [BeginPasswordReset, hp, getUserByEmail, hu, nonceNew, hn,
          Bool.false_eq_true, if_false, ht, hr, if_true]
    | false =>
      cases hs : env.sendFail with
      | true =>
        constructor
        · exact ⟨.sendError, by
            simp only [BeginPasswordReset, hp, getUserByEmail, hu, nonceNew, hn,
              Bool.false_eq_true, if_false, ht, hr, hs, if_true]⟩
        · simp only [BeginPasswordReset, hp, getUserByEmail, hu, nonceNew, hn,
            Bool.false_eq_true, if_false, ht, hr, hs, if_true]
      | false =>
        rcases hf with h | h | h
        · rw [h] at ht; exact Bool.noConfusion ht
        · rw [h] at hr; exact Bool.noConfusion hr
        · rw [h] at hs; exact Bool.noConfusion hs

/-- C2 witness: the amended behaviour at a concrete store and a
concrete failing send. -/
theorem beginPasswordReset_email_failure_propagates_witness :
    (∃ e, (BeginPasswordReset envSendFail stAlice "alice@example.com" 10).1 = .error e) ∧
    (BeginPasswordReset envSendFail stAlice "alice@example.com" 10).2 =
      appendNonce stAlice (issuedNonce stAlice "auth.PasswordReset" aliceUser.ID threeHours 10) :=
  beginPasswordReset_email_failure_propagates envSendFail stAlice
    "alice@example.com" "alice@example.com" aliceUser 10 (by decide) (by decide)
    (by decide) (Or.inr (Or.inr (by decide)))

/-- C10 counterexample: the User returned by `NewUserLocal` still
carries the staged plaintext — it is not cleared once hashed. -/
theorem newUserLocal_returns_plaintext_cex :
    (NewUserLocal Env.ok stEmpty "new@example.com" "pw1" "Ann" "Lee" false 5).1.map
      (fun u => u.rawPassword) = .ok "pw1" ∧ ("pw1" : String) ≠ "" := by
  decide

/-- C10 amended: the transient fields are never persisted — starting
from a table whose rows all carry cleared transient fields, every row
left by `NewUserLocal` or `CompletePasswordReset` still carries
`newPassword = false` and an empty `rawPassword` (rows are written
through the fixed column list) — but the plaintext is NOT cleared from
the value returned to the caller: both operations return the staged
record with `rawPassword` equal to the supplied plaintext and
`newPassword = true`. -/
theorem transient_fields_not_persisted
    (env1 env2 : Env) (st1 st2 : St)
    (token email1 email2 pw1 pw2 fn ln : String)
    (su : Bool) (now1 now2 : Nat) (uR uC : User)
    (hclean1 : ∀ w ∈ st1.users, w.newPassword = false ∧ w.rawPassword = "")
    (hclean2 : ∀ w ∈ st2.users, w.newPassword = false ∧ w.rawPassword = "")
    (hR : (NewUserLocal env1 st1 email1 pw1 fn ln su now1).1 = .ok uR)
    (hC : (CompletePasswordReset env2 st2 token email2 pw2 now2).1 = .ok uC) :
    (∀ w ∈ (NewUserLocal env1 st1 email1 pw1 fn ln su now1).2.users,
        w.newPassword = false ∧ w.rawPassword = "") ∧
    (∀ w ∈ (CompletePasswordReset env2 st2 token email2 pw2 now2).2.users,
        w.newPassword = false ∧ w.rawPassword = "") ∧
    uR.rawPassword = pw1 ∧ uR.newPassword = true ∧
    uC.rawPassword = pw2 ∧ uC.newPassword = true := by
  obtain ⟨hr1, hr2⟩ := newUserLocal_ok_fields hR
  obtain ⟨hc1, hc2, -⟩ := completePasswordReset_ok_fields hC
  refine ⟨?_, ?_, hr1, hr2, hc1, hc2⟩
  · intro w hw
    cases newUserLocal_users_mem hw with
    | inl h => exact hclean1 w h
    | inr h => exact h
  · intro w hw
    cases completePasswordReset_users_mem hw with
    | inl h => exact hclean2 w h
    | inr h => exact h

/-- C6 counterexample: the duplicate check matches ANY row with the
raw email; a store holding only an inactive, tombstoned row still makes
registration fail with `AlreadyExists`, although no active row exists. -/
theorem newUserLocal_conflict_tombstoned_cex :
    goneUser.IsActive = false ∧ goneUser.IsDeleted = true ∧
    (NewUserLocal Env.ok stGone "gone@example.com" "pw" "Fn" "Ln" false 9) =
      (.error .alreadyExists, stGone) := by
  decide

/-- C6 amended: `NewUserLocal` fails with `AlreadyExists` exactly when
ANY row with the supplied raw email exists — active or not, deleted or
not — leaving the store unchanged; otherwise (valid input, fresh email)
it hashes the password, stamps `createdAt = updatedAt = now`, marks the
user active and not deleted, assigns the freshly generated non-nil
identifier on persist, and returns the created User with the same
result for every notification environment. -/
theorem newUserLocal_spec (env : Env) (st : St) (email pw fn ln a : String)
    (su : Bool) (now : Nat)
    (hp : parseAddress email = some a)
    (hpw : strBlank pw = false)
    (hfn : strIsEmpty (strTrim fn) = false)
    (hln : strIsEmpty (strTrim ln) = false) :
    ((NewUserLocal env st email pw fn ln su now).1 = .error .alreadyExists ↔
      (∃ w, selectByEmail st email = some w)) ∧
    (∀ w, selectByEmail st email = some w →
      NewUserLocal env st email pw fn ln su now = (.error .alreadyExists, st)) ∧
    (selectByEmail st email = none →
      st.users.any (fun w => strEqb w.Email a) = false →
      NewUserLocal env st email pw fn ln su now =
        (.ok (registeredUser st email pw fn ln a su now),
         insertRow st (registeredUser st email pw fn ln a su now)) ∧
      (registeredUser st email pw fn ln a su now).Email = a ∧
      (registeredUser st email pw fn ln a su now).CreatedAt = now ∧
      (registeredUser st email pw fn ln a su now).UpdatedAt = now ∧
      (registeredUser st email pw fn ln a su now).IsActive = true ∧
      (registeredUser st email pw fn ln a su now).IsDeleted = false ∧
      (registeredUser st email pw fn ln a su now).ID = st.uuidCtr + 1 ∧
      (registeredUser st email pw fn ln a su now).ID ≠ 0 ∧
      (registeredUser st email pw fn ln a su now).Password =
        b64encode (bcryptHash pw) ∧
      NewUserLocal env st email pw fn ln su now =
        NewUserLocal Env.ok st email pw fn ln su now) := by
  refine ⟨⟨?_, ?_⟩, ?_, ?_⟩
  · intro h
    cases hsel : selectByEmail st email with
    | some w => exact ⟨w, rfl⟩
    | none =>
      exfalso
      cases hdup : st.users.any (fun w => strEqb w.Email a) with
      | false =>
        rw [newUserLocal_insert_eq env hp hpw hfn hln hsel hdup] at h
        exact absurd h (by simp)
      | true =>
        have hsd : saveUser st (freshUser email pw fn ln su now) =
            (.error .dbError, st) :=
          saveUser_dup_eq (freshUser_validate su now hp hpw hfn hln) rfl hdup
        rw [newUserLocal_eq_of_saved hsel hsd] at h
        simp at h
  · rintro ⟨w, hw⟩
    simp only [NewUserLocal, hw]
  · intro w hw
    simp only [NewUserLocal, hw]
  · intro hsel hnodup
    refine ⟨newUserLocal_insert_eq env hp hpw hfn hln hsel hnodup, rfl, rfl, rfl,
      rfl, rfl, rfl, Nat.succ_ne_zero _, rfl, ?_⟩
    rw [newUserLocal_insert_eq env hp hpw hfn hln hsel hnodup,
      newUserLocal_insert_eq Env.ok hp hpw hfn hln hsel hnodup]

/-- C6 witness: registering into the empty store at concrete inputs
yields the inserted record. -/
theorem newUserLocal_spec_witness :
    NewUserLocal Env.ok stEmpty "new@example.com" "pw1" "Ann" "Lee" false 5 =
      (.ok (registeredUser stEmpty "new@example.com" "pw1" "Ann" "Lee"
              "new@example.com" false 5),
       insertRow stEmpty (registeredUser stEmpty "new@example.com" "pw1" "Ann"
              "Lee" "new@example.com" false 5)) :=
  ((newUserLocal_spec Env.ok stEmpty "new@example.com" "pw1" "Ann" "Lee"
      "new@example.com" false 5 (by decide) (by decide) (by decide)
      (by decide)).2.2 (by decide) (by decide)).1

/-- C7: registering a valid tuple and then authenticating with the same
email and password succeeds, and the returned User's email is the
parser-normalised form of the input address. -/
theorem register_then_authenticate (env : Env) (st : St)
    (email pw fn ln a : String) (su : Bool) (now : Nat)
    (hp : parseAddress email = some a)
    (hpw : strBlank pw = false)
    (hfn : strIsEmpty (strTrim fn) = false)
    (hln : strIsEmpty (strTrim ln) = false)
    (hsel : selectByEmail st email = none)
    (hnodup : st.users.any (fun w => strEqb w.Email a) = false) :
    NewUserLocal env st email pw fn ln su now =
      (.ok (registeredUser st email pw fn ln a su now),
       insertRow st (registeredUser st email pw fn ln a su now)) ∧
    AuthenticateUser (insertRow st (registeredUser st email pw fn ln a su now))
        email pw =
      .ok (persistRow (registeredUser st email pw fn ln a su now)) ∧
    (persistRow (registeredUser st email pw fn ln a su now)).Email = a := by
  refine ⟨newUserLocal_insert_eq env hp hpw hfn hln hsel hnodup, ?_, rfl⟩
  have hfind0 : st.users.find? (fun w => strEqb w.Email a) = none :=
    find?_eq_none_of_any_false hnodup
  have hEq : strEqb (persistRow (registeredUser st email pw fn ln a su now)).Email a = true :=
    strEqb_refl a
  have hfound : selectByEmail
      (insertRow st (registeredUser st email pw fn ln a su now)) a =
      some (persistRow (registeredUser st email pw fn ln a su now)) := by
    show (st.users ++ [persistRow (registeredUser st email pw fn ln a su now)]).find?
        (fun w => strEqb w.Email a) =
      some (persistRow (registeredUser st email pw fn ln a su now))
    rw [find_append_none _ hfind0, hEq]
    simp
  have hdecode : b64decode
      (persistRow (registeredUser st email pw fn ln a su now)).Password =
      some (bcryptHash pw) := b64_roundtrip _
  simp only [AuthenticateUser, hp, hpw, Bool.false_eq_true, if_false,
    getUserByEmail, hfound, hdecode, bcryptCompare_hash_self pw, if_true]

/-- C7 witness: the round trip at concrete inputs. -/
theorem register_then_authenticate_witness :
    AuthenticateUser (insertRow stEmpty (registeredUser stEmpty
        "new@example.com" "pw1" "Ann" "Lee" "new@example.com" false 5))
      "new@example.com" "pw1" =
    .ok (persistRow (registeredUser stEmpty "new@example.com" "pw1" "Ann" "Lee"
        "new@example.com" false 5)) :=
  (register_then_authenticate Env.ok stEmpty "new@example.com" "pw1" "Ann" "Lee"
    "new@example.com" false 5 (by decide) (by decide) (by decide) (by decide)
    (by decide) (by decide)).2.1

/-- C9: for an existing user id, `DeleteUser` sets `isDeleted = true`
and `deletedAt = now`, persists by updating the row in place (the
statement's explicit record shows every other field unchanged), keeps
the table's length (the row is never removed), `GetUser` afterwards
still returns the record with `isDeleted = true`, and a second
`DeleteUser` of the same id also succeeds with `isDeleted` remaining
true. -/
theorem deleteUser_tombstones (st : St) (id now now2 : Nat) (u : User)
    (hid0 : id ≠ 0)
    (hu : selectByID st id = some u)
    (hpe : parseAddress u.Email = some u.Email)
    (hnp : u.newPassword = false)
    (hft : strTrim u.FirstName = u.FirstName)
    (hlt : strTrim u.LastName = u.LastName)
    (hfe : strIsEmpty u.FirstName = false)
    (hle : strIsEmpty u.LastName = false) :
    DeleteUser st id now =
      (.ok { u with IsDeleted := true, DeletedAt := now },
       updateRow st { u with IsDeleted := true, DeletedAt := now }) ∧
    (updateRow st { u with IsDeleted := true, DeletedAt := now }).users.length =
      st.users.length ∧
    GetUser (updateRow st { u with IsDeleted := true, DeletedAt := now }) id =
      .ok (persistRow { u with IsDeleted := true, DeletedAt := now }) ∧
    (persistRow { u with IsDeleted := true, DeletedAt := now }).IsDeleted = true ∧
    DeleteUser (updateRow st { u with IsDeleted := true, DeletedAt := now }) id now2 =
      (.ok { persistRow { u with IsDeleted := true, DeletedAt := now } with
               IsDeleted := true, DeletedAt := now2 },
       updateRow (updateRow st { u with IsDeleted := true, DeletedAt := now })
         { persistRow { u with IsDeleted := true, DeletedAt := now } with
             IsDeleted := true, DeletedAt := now2 }) := by
  have hsel2 : selectByID (updateRow st { u with IsDeleted := true, DeletedAt := now }) id =
      some (persistRow { u with IsDeleted := true, DeletedAt := now }) :=
    selectByID_updateRow hu rfl
  have hget2 : GetUser (updateRow st { u with IsDeleted := true, DeletedAt := now }) id =
      .ok (persistRow { u with IsDeleted := true, DeletedAt := now }) := by
    unfold GetUser
    rw [if_neg hid0, hsel2]
  refine ⟨deleteUser_eq hid0 hu hpe hnp hft hlt hfe hle,
    updateRow_length st _, hget2, rfl, ?_⟩
  exact deleteUser_eq hid0 hsel2 hpe rfl hft hlt hfe hle

/-- C9 witness: deleting the concrete active user twice. -/
theorem deleteUser_tombstones_witness :
    DeleteUser stAlice 1 7 =
      (.ok { aliceUser with IsDeleted := true, DeletedAt := 7 },
       updateRow stAlice { aliceUser with IsDeleted := true, DeletedAt := 7 }) ∧
    GetUser (updateRow stAlice { aliceUser with IsDeleted := true, DeletedAt := 7 }) 1 =
      .ok (persistRow { aliceUser with IsDeleted := true, DeletedAt := 7 }) := by
  have h := deleteUser_tombstones stAlice 1 7 9 aliceUser (by decide) (by decide)
    (by decide) (by decide) (by decide) (by decide) (by decide) (by decide)
  exact ⟨h.1, h.2.2.1⟩

/-- C4: in `CompletePasswordReset` the token consume precedes the
credential change — a failing consume returns the error with the whole
state (including the stored password hash) unchanged — and after one
successful completion a second call with the same token fails with
`InvalidToken`, leaves the state unchanged, and the stored row still
carries the hash set by the first completion. -/
theorem completePasswordReset_consume_first
    (env env2 : Env) (st : St) (token email a pw pw2 : String)
    (now now2 : Nat) (u : User) (n : Nonce)
    (hp : parseAddress email = some a)
    (hu : selectByEmail st a = some u)
    (hids : ∀ w ∈ st.users, w.ID = u.ID → w = u)
    (hn : st.nonces.find? (fun m => strEqb m.Token token) = some n)
    (ho : nonceOkFor n "auth.PasswordReset" u.ID now = true)
    (hpw : strBlank pw = false)
    (hft : strTrim u.FirstName = u.FirstName)
    (hlt : strTrim u.LastName = u.LastName)
    (hfe : strIsEmpty u.FirstName = false)
    (hle : strIsEmpty u.LastName = false)
    (hid : u.ID ≠ 0) :
    (∀ tok2 e,
      (checkThenConsume st tok2 "auth.PasswordReset" u.ID now).1 = .error e →
      CompletePasswordReset env st tok2 email pw now = (.error .invalidToken, st)) ∧
    CompletePasswordReset env st token email pw now =
      (.ok (withNewPassword u pw),
       updateRow (markConsumed st token) (withNewPassword u pw)) ∧
    CompletePasswordReset env2
        (updateRow (markConsumed st token) (withNewPassword u pw))
        token email pw2 now2 =
      (.error .invalidToken,
       updateRow (markConsumed st token) (withNewPassword u pw)) ∧
    selectByEmail (updateRow (markConsumed st token) (withNewPassword u pw)) a =
      some (persistRow (withNewPassword u pw)) ∧
    (persistRow (withNewPassword u pw)).Password = b64encode (bcryptHash pw) := by
  have hok := completePasswordReset_eq_ok env hp hu hn ho hpw hft hlt hfe hle hid
  have hu2 : st.users.find? (fun w => strEqb w.Email a) = some u := hu
  have hbeq := List.find?_some hu2
  have hEmail : u.Email = a := strEqb_eq (by exact hbeq)
  subst hEmail
  have hg : getUserByEmail st u.Email = .ok u := by
    unfold getUserByEmail
    rw [hu]
  have hfound : selectByEmail
      (updateRow (markConsumed st token) (withNewPassword u pw)) u.Email =
      some (persistRow (withNewPassword u pw)) := by
    show (st.users.map
        (fun w => if w.ID == u.ID then persistRow (withNewPassword u pw) else w)).find?
        (fun w => strEqb w.Email u.Email) = some (persistRow (withNewPassword u pw))
    refine find_map_replace _ _ (persistRow (withNewPassword u pw)) hu2
      (fun w hw hq => hids w hw (by simpa using hq)) (beq_self_eq_true u.ID) ?_
    show strEqb (persistRow (withNewPassword u pw)).Email u.Email = true
    exact strEqb_refl u.Email
  have hg2 : getUserByEmail
      (updateRow (markConsumed st token) (withNewPassword u pw)) u.Email =
      .ok (persistRow (withNewPassword u pw)) := by
    unfold getUserByEmail
    rw [hfound]
  have hfound2 : (updateRow (markConsumed st token)
      (withNewPassword u pw)).nonces.find? (fun m => strEqb m.Token token) =
      some { n with Consumed := true } := by
    show (st.nonces.map
        (fun m => if strEqb m.Token token then { m with Consumed := true } else m)).find?
        (fun m => strEqb m.Token token) = some { n with Consumed := true }
    refine find_map_modify (fun m => strEqb m.Token token)
      (fun (m : Nonce) => { m with Consumed := true }) hn ?_
    have hb := List.find?_some hn
    show strEqb n.Token token = true
    exact hb
  have hc2 : checkThenConsume
      (updateRow (markConsumed st token) (withNewPassword u pw)) token
      "auth.PasswordReset" (persistRow (withNewPassword u pw)).ID now2 =
      (.error .invalidToken,
       updateRow (markConsumed st token) (withNewPassword u pw)) := by
    unfold checkThenConsume
    rw [hfound2]
    simp [nonceOkFor]
  refine ⟨?_, hok, ?_, hfound, rfl⟩
  · intro tok2 e he
    have hcc := checkThenConsume_error_eq he
    simp only [CompletePasswordReset, hp, hg, hcc]
  · simp only [CompletePasswordReset, hp, hg2, hc2]

/-- C4 witness: the concrete reset round trip and its failing replay. -/
theorem completePasswordReset_consume_first_witness :
    CompletePasswordReset Env.ok stAliceNonce (freshToken 0)
        "alice@example.com" "newpw" 50 =
      (.ok (withNewPassword aliceUser "newpw"),
       updateRow (markConsumed stAliceNonce (freshToken 0))
         (withNewPassword aliceUser "newpw")) ∧
    CompletePasswordReset Env.ok
        (updateRow (markConsumed stAliceNonce (freshToken 0))
          (withNewPassword aliceUser "newpw"))
        (freshToken 0) "alice@example.com" "evil" 60 =
      (.error .invalidToken,
       updateRow (markConsumed stAliceNonce (freshToken 0))
         (withNewPassword aliceUser "newpw")) := by
  have h := completePasswordReset_consume_first Env.ok Env.ok stAliceNonce
    (freshToken 0) "alice@example.com" "alice@example.com" "newpw" "evil" 50 60
    aliceUser aliceNonce (by decide) (by decide) (by decide) (by decide)
    (by decide) (by decide) (by decide) (by decide) (by decide) (by decide)
    (by decide)
  exact ⟨h.2.1, h.2.2.1⟩

/-- C8 counterexample: the one-time token issued by `BeginPasswordReset`
carries the purpose tag "auth.PasswordReset", not "password-reset" as
the claim states. -/
theorem beginPasswordReset_purpose_cex :
    (BeginPasswordReset Env.ok stAlice "alice@example.com" 10).2.nonces.map
      (fun n => n.Purpose) = ["auth.PasswordReset"] ∧
    ("auth.PasswordReset" : String) ≠ "password-reset" := by
  decide

/-- C8 amended: `BeginPasswordReset` issues a one-time token with
purpose "auth.PasswordReset" (not "password-reset"), subject the
resolved user's identifier and a three-hour time-to-live; an issuance
failure makes the operation fail; and `CompletePasswordReset` consumes
under the same purpose and the resolved user's identifier, so the
issued token completes the reset for that same user. -/
theorem passwordReset_token_protocol
    (env env2 : Env) (st : St) (email a newPw : String) (now now2 : Nat)
    (u : User)
    (hp : parseAddress email = some a)
    (hu : selectByEmail st a = some u)
    (hfresh : st.nonces.find?
      (fun m => strEqb m.Token (freshToken st.nonceCtr)) = none)
    (hpw : strBlank newPw = false)
    (hft : strTrim u.FirstName = u.FirstName)
    (hlt : strTrim u.LastName = u.LastName)
    (hfe : strIsEmpty u.FirstName = false)
    (hle : strIsEmpty u.LastName = false)
    (hid : u.ID ≠ 0)
    (hexp : ¬ (now + threeHours < now2)) :
    (issuedNonce st "auth.PasswordReset" u.ID threeHours now).Purpose =
      "auth.PasswordReset" ∧
    (issuedNonce st "auth.PasswordReset" u.ID threeHours now).Subject = u.ID ∧
    (issuedNonce st "auth.PasswordReset" u.ID threeHours now).ExpiresAt =
      now + 3 * 3600 ∧
    (env.nonceFail = true →
      BeginPasswordReset env st email now = (.error .nonceError, st)) ∧
    (env.nonceFail = false →
      (BeginPasswordReset env st email now).2 =
        appendNonce st (issuedNonce st "auth.PasswordReset" u.ID threeHours now)) ∧
    (env.nonceFail = false →
      CompletePasswordReset env2 (BeginPasswordReset env st email now).2
          (freshToken st.nonceCtr) email newPw now2 =
        (.ok (withNewPassword u newPw),
         updateRow
           (markConsumed
             (appendNonce st (issuedNonce st "auth.PasswordReset" u.ID threeHours now))
             (freshToken st.nonceCtr))
           (withNewPassword u newPw))) := by
  have hg : getUserByEmail st a = .ok u := by
    unfold getUserByEmail
    rw [hu]
  have hstate : ∀ hnf : env.nonceFail = false,
      (BeginPasswordReset env st email now).2 =
        appendNonce st (issuedNonce st "auth.PasswordReset" u.ID threeHours now) := by
    intro hnf
    simp only [BeginPasswordReset, hp, hg, nonceNew, hnf, Bool.false_eq_true, if_false]
    cases h1 : env.tplFail <;> cases h2 : env.rcptFail <;> cases h3 : env.sendFail <;>
      simp [h1, h2, h3]
  refine ⟨rfl, rfl, rfl, ?_, hstate, ?_⟩
  · intro hnf
    simp only [BeginPasswordReset, hp, hg, nonceNew, hnf, if_true]
  · intro hnf
    rw [hstate hnf]
    have hn2 : (appendNonce st (issuedNonce st "auth.PasswordReset" u.ID threeHours now)).nonces.find?
        (fun m => strEqb m.Token (freshToken st.nonceCtr)) =
        some (issuedNonce st "auth.PasswordReset" u.ID threeHours now) := by
      show (st.nonces ++ [issuedNonce st "auth.PasswordReset" u.ID threeHours now]).find?
          (fun m => strEqb m.Token (freshToken st.nonceCtr)) =
        some (issuedNonce st "auth.PasswordReset" u.ID threeHours now)
      rw [find_append_none _ hfresh]
      have hc : strEqb (issuedNonce st "auth.PasswordReset" u.ID threeHours now).Token
          (freshToken st.nonceCtr) = true := strEqb_refl _
      rw [hc]
      rfl
    have ho : nonceOkFor (issuedNonce st "auth.PasswordReset" u.ID threeHours now)
        "auth.PasswordReset" u.ID now2 = true := by
      show (!(false : Bool) && !(decide (now + threeHours < now2)) &&
        strEqb "auth.PasswordReset" "auth.PasswordReset" && (u.ID == u.ID)) = true
      rw [decide_eq_false hexp, strEqb_refl, beq_self_eq_true]
      rfl
    exact completePasswordReset_eq_ok env2 hp hu hn2 ho hpw hft hlt hfe hle hid

/-- C8 witness: the concrete issue-then-complete round trip. -/
theorem passwordReset_token_protocol_witness :
    (BeginPasswordReset Env.ok stAlice "alice@example.com" 10).2 =
      appendNonce stAlice (issuedNonce stAlice "auth.PasswordReset" aliceUser.ID threeHours 10) ∧
    CompletePasswordReset Env.ok (BeginPasswordReset Env.ok stAlice "alice@example.com" 10).2
        (freshToken stAlice.nonceCtr) "alice@example.com" "resetpw" 20 =
      (.ok (withNewPassword aliceUser "resetpw"),
       updateRow
         (markConsumed
           (appendNonce stAlice (issuedNonce stAlice "auth.PasswordReset" aliceUser.ID threeHours 10))
           (freshToken stAlice.nonceCtr))
         (withNewPassword aliceUser "resetpw")) := by
  have h := passwordReset_token_protocol Env.ok Env.ok stAlice "alice@example.com"
    "alice@example.com" "resetpw" 10 20 aliceUser (by decide) (by decide) (by decide)
    (by decide) (by decide) (by decide) (by decide) (by decide) (by decide) (by decide)
  exact ⟨h.2.2.2.2.1 rfl, h.2.2.2.2.2 rfl⟩

/-- C10 witness: concrete registration and reset-completion runs whose
returned values still carry the plaintext. -/
theorem transient_fields_not_persisted_witness :
    regUser1.rawPassword = "pw1" ∧ regUser1.newPassword = true ∧
    compUser1.rawPassword = "newpw" ∧ compUser1.newPassword = true := by
  have h := transient_fields_not_persisted Env.ok Env.ok stEmpty stAliceNonce
    (freshToken 0) "new@example.com" "alice@example.com" "pw1" "newpw" "Ann" "Lee"
    false 5 50 regUser1 compUser1 (by decide) (by decide) (by decide) (by decide)
  exact ⟨h.2.2.1, h.2.2.2.1, h.2.2.2.2.1, h.2.2.2.2.2⟩

end GoAuth
